import Mathlib

/-!
Shallow embedding of the Brainrot interpreter core (src/ast.c) in Lean 4,
used to settle the frozen claims about the evaluation engine.

Conventions of the embedding:
* C signed int values are modelled as unbounded integers; signed-overflow
  situations (undefined behaviour in C) are never exercised by any theorem.
* Conversions to short are modelled by explicit wrapping into the 16-bit
  signed range, matching the conversion the generated code performs.
* C float and double values are modelled symbolically by the type CFloat:
  a finite rational, plus infinity, minus infinity, or NaN.  Finite
  arithmetic is exact (rounding is abstracted); the IEEE-754 special-case
  rules for zero divisors, infinities and NaN are modelled explicitly.
* Reads through a pointer at the wrong width or type (the code stores a
  short into a 2-byte allocation and later reads it back with a 4-byte
  int load), dereferencing a NULL result, and the native modulo with a
  zero divisor are undefined behaviour in C; the embedding returns none
  for the value in those situations.
* yyerror (src/unnamed/part_000:375) only prints the message on stderr and
  returns; the embedding accumulates the reported messages in a list.
-/

/-- The VarType enum of the interpreter (declared in ast.h, used throughout
src/ast.c). -/
inductive VarType where
  | VAR_SHORT
  | VAR_INT
  | VAR_FLOAT
  | VAR_DOUBLE
  | VAR_BOOL
  | VAR_CHAR
  | VAR_STRING
  | NONE
deriving DecidableEq, Repr

open VarType

/-- Binary operator codes of the AST (OperatorType in ast.h), restricted to
the operators handled by handle_binary_operation plus the logical pair that
the typed evaluators special-case. -/
inductive BinOp where
  | OP_PLUS
  | OP_MINUS
  | OP_TIMES
  | OP_DIVIDE
  | OP_MOD
  | OP_LT
  | OP_GT
  | OP_LE
  | OP_GE
  | OP_EQ
  | OP_NE
  | OP_AND
  | OP_OR
deriving DecidableEq, Repr

open BinOp

/-- Symbolic model of a C float or double value: a finite rational (finite
arithmetic is exact, rounding abstracted), an infinity, or NaN. -/
inductive CFloat where
  | finite (q : ℚ)
  | pinf
  | ninf
  | nan
deriving DecidableEq, Repr

namespace CFloat

/-- Conversion from a C int to a floating value (exact for the magnitudes
exercised here). -/
def of_int (n : Int) : CFloat := .finite (n : ℚ)

/-- IEEE-754 negation. -/
def neg : CFloat → CFloat
  | .finite q => .finite (-q)
  | .pinf => .ninf
  | .ninf => .pinf
  | .nan => .nan

/-- IEEE-754 addition on the symbolic model. -/
def add : CFloat → CFloat → CFloat
  | .nan, _ => .nan
  | _, .nan => .nan
  | .pinf, .ninf => .nan
  | .ninf, .pinf => .nan
  | .pinf, _ => .pinf
  | _, .pinf => .pinf
  | .ninf, _ => .ninf
  | _, .ninf => .ninf
  | .finite a, .finite b => .finite (a + b)

/-- IEEE-754 subtraction on the symbolic model. -/
def sub (x y : CFloat) : CFloat := add x (neg y)

/-- IEEE-754 multiplication on the symbolic model. -/
def mul : CFloat → CFloat → CFloat
  | .nan, _ => .nan
  | _, .nan => .nan
  | .pinf, .pinf => .pinf
  | .pinf, .ninf => .ninf
  | .ninf, .pinf => .ninf
  | .ninf, .ninf => .pinf
  | .pinf, .finite b => if b = 0 then .nan else if 0 < b then .pinf else .ninf
  | .ninf, .finite b => if b = 0 then .nan else if 0 < b then .ninf else .pinf
  | .finite a, .pinf => if a = 0 then .nan else if 0 < a then .pinf else .ninf
  | .finite a, .ninf => if a = 0 then .nan else if 0 < a then .ninf else .pinf
  | .finite a, .finite b => .finite (a * b)

/-- IEEE-754 division on the symbolic model: a nonzero finite value divided
by zero gives a signed infinity, zero divided by zero gives NaN. -/
def div : CFloat → CFloat → CFloat
  | .nan, _ => .nan
  | _, .nan => .nan
  | .pinf, .pinf => .nan
  | .pinf, .ninf => .nan
  | .ninf, .pinf => .nan
  | .ninf, .ninf => .nan
  | .pinf, .finite b => if 0 ≤ b then .pinf else .ninf
  | .ninf, .finite b => if 0 ≤ b then .ninf else .pinf
  | .finite _, .pinf => .finite 0
  | .finite _, .ninf => .finite 0
  | .finite a, .finite b =>
      if b = 0 then
        if a = 0 then .nan else if 0 < a then .pinf else .ninf
      else .finite (a / b)

/-- The C library fmod on the symbolic model: result of x - trunc(x/y)*y for
finite operands, NaN when the divisor is zero or the dividend infinite. -/
def fmod : CFloat → CFloat → CFloat
  | .nan, _ => .nan
  | _, .nan => .nan
  | .pinf, _ => .nan
  | .ninf, _ => .nan
  | .finite a, .pinf => .finite a
  | .finite a, .ninf => .finite a
  | .finite a, .finite b =>
      if b = 0 then .nan
      else .finite (a - ((a / b).floor + if (a / b) < 0 ∧ (a / b).floor < a / b then 1 else 0) * b)

/-- IEEE-754 less-than (false whenever an operand is NaN). -/
def lt : CFloat → CFloat → Bool
  | .nan, _ => false
  | _, .nan => false
  | .finite a, .finite b => decide (a < b)
  | .finite _, .pinf => true
  | .finite _, .ninf => false
  | .pinf, _ => false
  | .ninf, .ninf => false
  | .ninf, _ => true

/-- IEEE-754 equality (false whenever an operand is NaN). -/
def eq : CFloat → CFloat → Bool
  | .nan, _ => false
  | _, .nan => false
  | .finite a, .finite b => decide (a = b)
  | .pinf, .pinf => true
  | .ninf, .ninf => true
  | _, _ => false

/-- IEEE-754 less-or-equal. -/
def le (x y : CFloat) : Bool := lt x y || eq x y

/-- IEEE-754 greater-than. -/
def gt (x y : CFloat) : Bool := lt y x

/-- IEEE-754 greater-or-equal. -/
def ge (x y : CFloat) : Bool := le y x

/-- IEEE-754 inequality (true whenever an operand is NaN). -/
def ne (x y : CFloat) : Bool := !(eq x y)

/-- The C cast of a floating value to int: truncation toward zero; NaN,
infinities and values outside the 32-bit signed range are undefined
behaviour, modelled as none. -/
def to_int : CFloat → Option Int
  | .finite q =>
      let t : Int := if q < 0 then -((-q).floor) else q.floor
      if -2147483648 ≤ t ∧ t ≤ 2147483647 then some t else none
  | _ => none

/-- The C cast of a floating value to short, analogous to to_int. -/
def to_short : CFloat → Option Int
  | .finite q =>
      let t : Int := if q < 0 then -((-q).floor) else q.floor
      if -32768 ≤ t ∧ t ≤ 32767 then some t else none
  | _ => none

/-- The C truth test of a floating value (NaN and infinities are truthy). -/
def to_bool : CFloat → Bool
  | .finite q => decide (q ≠ 0)
  | _ => true

end CFloat

/-- Wrap an unbounded integer into the 16-bit signed range, the conversion
performed when a value is stored through a short lvalue. -/
def to_short_int (n : Int) : Int := ((n + 32768) % 65536) - 32768

/-- Wrap an unbounded integer into the 32-bit signed range (used when an
unsigned 32-bit result is stored back through an int lvalue). -/
def wrap32 (n : Int) : Int := ((n + 2147483648) % 4294967296) - 2147483648

/-- A runtime value of the interpreter, tagged by its C type.  This models
the pairing of an untyped malloc slot with the VarType that the code uses
to interpret it (the value.* union members of Variable together with
var_type, and the typed result slots of handle_binary_operation). -/
inductive CValue where
  | intV (n : Int)
  | shortV (n : Int)
  | floatV (x : CFloat)
  | doubleV (x : CFloat)
  | boolV (b : Bool)
  | strV (s : String)
deriving DecidableEq, Repr

open CValue

/-- The C type tag of a CValue. -/
def CValue.tag : CValue → VarType
  | .intV _ => VAR_INT
  | .shortV _ => VAR_SHORT
  | .floatV _ => VAR_FLOAT
  | .doubleV _ => VAR_DOUBLE
  | .boolV _ => VAR_BOOL
  | .strV _ => VAR_STRING

/-- Expression nodes of the AST fragment needed by the claims: the literal
node kinds together with binary operations and unary negation.  The uns
flag is the is_unsigned bit of the node modifiers, consulted by the OP_MOD
arm of handle_binary_operation.  Identifier, array-access, sizeof and
function-call expression nodes are not required by any claim and are not
modelled. -/
inductive Expr where
  | intLit (n : Int)
  | shortLit (n : Int)
  | floatLit (x : CFloat)
  | doubleLit (x : CFloat)
  | boolLit (b : Bool)
  | charLit (c : Int)
  | binop (op : BinOp) (uns : Bool) (l r : Expr)
  | unary_neg (e : Expr)
deriving DecidableEq, Repr

/-- Result of an evaluation step: the computed value (none when the C code
reaches undefined behaviour, such as a wrong-width pointer read, a NULL
dereference, or the native modulo with zero divisor) together with the
diagnostics printed through yyerror, in order. -/
structure Res (α : Type) where
  val : Option α
  diags : List String
deriving DecidableEq, Repr

/-- get_expression_type, src/ast.c:796-888, restricted to the modelled node
kinds.  Note that for an operation node the promotion chain never yields
VAR_SHORT: two short operands are reported as VAR_INT. -/
def get_expression_type : Expr → VarType
  | .intLit _ => VAR_INT
  | .shortLit _ => VAR_SHORT
  | .floatLit _ => VAR_FLOAT
  | .doubleLit _ => VAR_DOUBLE
  | .boolLit _ => VAR_BOOL
  | .charLit _ => VAR_INT
  | .binop _ _ l r =>
      let left_type := get_expression_type l
      let right_type := get_expression_type r
      if left_type = VAR_DOUBLE ∨ right_type = VAR_DOUBLE then VAR_DOUBLE
      else if left_type = VAR_FLOAT ∨ right_type = VAR_FLOAT then VAR_FLOAT
      else VAR_INT
  | .unary_neg e => get_expression_type e

/-- The type-promotion computation of handle_binary_operation,
src/ast.c:906-913: start from VAR_SHORT and promote through the
double / float / int tests. -/
def promote_type (left_type right_type : VarType) : VarType :=
  if left_type = VAR_DOUBLE ∨ right_type = VAR_DOUBLE then VAR_DOUBLE
  else if left_type = VAR_FLOAT ∨ right_type = VAR_FLOAT then VAR_FLOAT
  else if left_type = VAR_INT ∨ right_type = VAR_INT then VAR_INT
  else VAR_SHORT

/-- The OP_NEG arm of handle_unary_expression, src/ast.c:1175-1210.  The
operand pointer and the operand_type argument are modelled together as a
tagged CValue.  Note the short branch applies the logical NOT operator
while the int, float and double branches apply arithmetic negation; the
final else reports an invalid type and returns NULL. -/
def handle_unary_expression_neg : CValue → Res CValue
  | .intV n => ⟨some (.intV (-n)), []⟩
  | .shortV s => ⟨some (.shortV (if s = 0 then 1 else 0)), []⟩
  | .floatV x => ⟨some (.floatV (CFloat.neg x)), []⟩
  | .doubleV x => ⟨some (.doubleV (CFloat.neg x)), []⟩
  | .boolV b => ⟨some (.boolV (!b)), []⟩
  | .strV _ => ⟨none, ["Invalid type for unary negation"]⟩

/-- The operator switch of handle_binary_operation, src/ast.c:982-1163,
applied to the already evaluated operand slots.  The slots carry the tag
of the promoted type; each operator case selects the store through the
matching pointer cast.  Division by zero on int and short stores the
fallback 0 and reports a diagnostic (src/ast.c:1021-1025, 1041-1045);
modulo by zero on int does the same (src/ast.c:1058-1062), but the short
modulo branch (src/ast.c:1083-1086) applies the native operator with no
zero test, which is undefined behaviour when the divisor is zero. -/
def apply_binary_operator (op : BinOp) (uns : Bool) (promoted_type : VarType)
    (left_value right_value : CValue) : Res CValue :=
  match op with
  | OP_PLUS =>
      match promoted_type, left_value, right_value with
      | VAR_INT, .intV a, .intV b => ⟨some (.intV (a + b)), []⟩
      | VAR_FLOAT, .floatV a, .floatV b => ⟨some (.floatV (CFloat.add a b)), []⟩
      | VAR_DOUBLE, .doubleV a, .doubleV b => ⟨some (.doubleV (CFloat.add a b)), []⟩
      | VAR_SHORT, .shortV a, .shortV b => ⟨some (.shortV (to_short_int (a + b))), []⟩
      | _, _, _ => ⟨none, []⟩
  | OP_MINUS =>
      match promoted_type, left_value, right_value with
      | VAR_INT, .intV a, .intV b => ⟨some (.intV (a - b)), []⟩
      | VAR_FLOAT, .floatV a, .floatV b => ⟨some (.floatV (CFloat.sub a b)), []⟩
      | VAR_DOUBLE, .doubleV a, .doubleV b => ⟨some (.doubleV (CFloat.sub a b)), []⟩
      | VAR_SHORT, .shortV a, .shortV b => ⟨some (.shortV (to_short_int (a - b))), []⟩
      | _, _, _ => ⟨none, []⟩
  | OP_TIMES =>
      match promoted_type, left_value, right_value with
      | VAR_INT, .intV a, .intV b => ⟨some (.intV (a * b)), []⟩
      | VAR_FLOAT, .floatV a, .floatV b => ⟨some (.floatV (CFloat.mul a b)), []⟩
      | VAR_DOUBLE, .doubleV a, .doubleV b => ⟨some (.doubleV (CFloat.mul a b)), []⟩
      | VAR_SHORT, .shortV a, .shortV b => ⟨some (.shortV (to_short_int (a * b))), []⟩
      | _, _, _ => ⟨none, []⟩
  | OP_DIVIDE =>
      match promoted_type, left_value, right_value with
      | VAR_INT, .intV a, .intV b =>
          if b = 0 then ⟨some (.intV 0), ["Division by zero"]⟩
          else ⟨some (.intV (Int.tdiv a b)), []⟩
      | VAR_FLOAT, .floatV a, .floatV b => ⟨some (.floatV (CFloat.div a b)), []⟩
      | VAR_DOUBLE, .doubleV a, .doubleV b => ⟨some (.doubleV (CFloat.div a b)), []⟩
      | VAR_SHORT, .shortV a, .shortV b =>
          if b = 0 then ⟨some (.shortV 0), ["Division by zero"]⟩
          else ⟨some (.shortV (to_short_int (Int.tdiv a b))), []⟩
      | _, _, _ => ⟨none, []⟩
  | OP_MOD =>
      match promoted_type, left_value, right_value with
      | VAR_INT, .intV a, .intV b =>
          if b = 0 then ⟨some (.intV 0), ["Modulo by zero"]⟩
          else if uns then
            ⟨some (.intV (wrap32 ((a % 4294967296) % (b % 4294967296)))), []⟩
          else ⟨some (.intV (Int.tmod a b)), []⟩
      | VAR_FLOAT, .floatV a, .floatV b => ⟨some (.floatV (CFloat.fmod a b)), []⟩
      | VAR_DOUBLE, .doubleV a, .doubleV b => ⟨some (.doubleV (CFloat.fmod a b)), []⟩
      | VAR_SHORT, .shortV a, .shortV b =>
          if b = 0 then ⟨none, []⟩
          else ⟨some (.shortV (to_short_int (Int.tmod a b))), []⟩
      | _, _, _ => ⟨none, []⟩
  | OP_LT =>
      match promoted_type, left_value, right_value with
      | VAR_INT, .intV a, .intV b => ⟨some (.intV (if a < b then 1 else 0)), []⟩
      | VAR_FLOAT, .floatV a, .floatV b =>
          ⟨some (.floatV (if CFloat.lt a b then .finite 1 else .finite 0)), []⟩
      | VAR_DOUBLE, .doubleV a, .doubleV b =>
          ⟨some (.doubleV (if CFloat.lt a b then .finite 1 else .finite 0)), []⟩
      | VAR_SHORT, .shortV a, .shortV b => ⟨some (.shortV (if a < b then 1 else 0)), []⟩
      | _, _, _ => ⟨none, []⟩
  | OP_GT =>
      match promoted_type, left_value, right_value with
      | VAR_INT, .intV a, .intV b => ⟨some (.intV (if b < a then 1 else 0)), []⟩
      | VAR_FLOAT, .floatV a, .floatV b =>
          ⟨some (.floatV (if CFloat.gt a b then .finite 1 else .finite 0)), []⟩
      | VAR_DOUBLE, .doubleV a, .doubleV b =>
          ⟨some (.doubleV (if CFloat.gt a b then .finite 1 else .finite 0)), []⟩
      | VAR_SHORT, .shortV a, .shortV b => ⟨some (.shortV (if b < a then 1 else 0)), []⟩
      | _, _, _ => ⟨none, []⟩
  | OP_LE =>
      match promoted_type, left_value, right_value with
      | VAR_INT, .intV a, .intV b => ⟨some (.intV (if a ≤ b then 1 else 0)), []⟩
      | VAR_FLOAT, .floatV a, .floatV b =>
          ⟨some (.floatV (if CFloat.le a b then .finite 1 else .finite 0)), []⟩
      | VAR_DOUBLE, .doubleV a, .doubleV b =>
          ⟨some (.doubleV (if CFloat.le a b then .finite 1 else .finite 0)), []⟩
      | VAR_SHORT, .shortV a, .shortV b => ⟨some (.shortV (if a ≤ b then 1 else 0)), []⟩
      | _, _, _ => ⟨none, []⟩
  | OP_GE =>
      match promoted_type, left_value, right_value with
      | VAR_INT, .intV a, .intV b => ⟨some (.intV (if b ≤ a then 1 else 0)), []⟩
      | VAR_FLOAT, .floatV a, .floatV b =>
          ⟨some (.floatV (if CFloat.ge a b then .finite 1 else .finite 0)), []⟩
      | VAR_DOUBLE, .doubleV a, .doubleV b =>
          ⟨some (.doubleV (if CFloat.ge a b then .finite 1 else .finite 0)), []⟩
      | VAR_SHORT, .shortV a, .shortV b => ⟨some (.shortV (if b ≤ a then 1 else 0)), []⟩
      | _, _, _ => ⟨none, []⟩
  | OP_EQ =>
      match promoted_type, left_value, right_value with
      | VAR_INT, .intV a, .intV b => ⟨some (.intV (if a = b then 1 else 0)), []⟩
      | VAR_FLOAT, .floatV a, .floatV b =>
          ⟨some (.floatV (if CFloat.eq a b then .finite 1 else .finite 0)), []⟩
      | VAR_DOUBLE, .doubleV a, .doubleV b =>
          ⟨some (.doubleV (if CFloat.eq a b then .finite 1 else .finite 0)), []⟩
      | VAR_SHORT, .shortV a, .shortV b => ⟨some (.shortV (if a = b then 1 else 0)), []⟩
      | _, _, _ => ⟨none, []⟩
  | OP_NE =>
      match promoted_type, left_value, right_value with
      | VAR_INT, .intV a, .intV b => ⟨some (.intV (if a = b then 0 else 1)), []⟩
      | VAR_FLOAT, .floatV a, .floatV b =>
          ⟨some (.floatV (if CFloat.ne a b then .finite 1 else .finite 0)), []⟩
      | VAR_DOUBLE, .doubleV a, .doubleV b =>
          ⟨some (.doubleV (if CFloat.ne a b then .finite 1 else .finite 0)), []⟩
      | VAR_SHORT, .shortV a, .shortV b => ⟨some (.shortV (if a = b then 0 else 1)), []⟩
      | _, _, _ => ⟨none, []⟩
  | OP_AND => ⟨none, ["Unsupported binary operator"]⟩
  | OP_OR => ⟨none, ["Unsupported binary operator"]⟩

mutual

/-- evaluate_expression_int, src/ast.c:1706-1792, on the modelled node
kinds: literals, operations (with the OP_AND and OP_OR short-circuit
special cases of src/ast.c:1738-1751), and unary negation.  The
NODE_OPERATION tail re-reads the result slot at the width selected by
get_expression_type (src/ast.c:1754-1761); since that chain reports
VAR_INT for a short-promoted operation, the 4-byte read of the 2-byte
slot is undefined behaviour, modelled as none. -/
def evaluate_expression_int : Expr → Res Int
  | .intLit n => ⟨some n, []⟩
  | .boolLit b => ⟨some (if b then 1 else 0), []⟩
  | .charLit c => ⟨some c, []⟩
  | .shortLit s => ⟨some s, []⟩
  | .floatLit x => ⟨CFloat.to_int x, ["Cannot use float in integer context"]⟩
  | .doubleLit x => ⟨CFloat.to_int x, ["Cannot use double in integer context"]⟩
  | .binop OP_AND uns l r =>
      let lres := evaluate_expression_int l
      match lres.val with
      | none => ⟨none, lres.diags⟩
      | some lv =>
          if lv = 0 then ⟨some 0, lres.diags⟩
          else
            let rres := evaluate_expression_int r
            match rres.val with
            | none => ⟨none, lres.diags ++ rres.diags⟩
            | some rv => ⟨some (if rv ≠ 0 then 1 else 0), lres.diags ++ rres.diags⟩
  | .binop OP_OR uns l r =>
      let lres := evaluate_expression_int l
      match lres.val with
      | none => ⟨none, lres.diags⟩
      | some lv =>
          if lv ≠ 0 then ⟨some 1, lres.diags⟩
          else
            let rres := evaluate_expression_int r
            match rres.val with
            | none => ⟨none, lres.diags ++ rres.diags⟩
            | some rv => ⟨some (if rv ≠ 0 then 1 else 0), lres.diags ++ rres.diags⟩
  | .binop op uns l r =>
      let result_type := get_expression_type (.binop op uns l r)
      let res := handle_binary_operation op uns l r
      match res.val with
      | none => ⟨none, res.diags⟩
      | some v =>
          if result_type = VAR_INT then
            match v with
            | .intV n => ⟨some n, res.diags⟩
            | _ => ⟨none, res.diags⟩
          else if result_type = VAR_FLOAT then
            match v with
            | .floatV x => ⟨CFloat.to_int x, res.diags⟩
            | _ => ⟨none, res.diags⟩
          else
            match v with
            | .doubleV x => ⟨CFloat.to_int x, res.diags⟩
            | _ => ⟨none, res.diags⟩
  | .unary_neg e =>
      let ores := evaluate_expression_int e
      match ores.val with
      | none => ⟨none, ores.diags⟩
      | some ov =>
          let r := handle_unary_expression_neg (.intV ov)
          match r.val with
          | some (.intV n) => ⟨some n, ores.diags ++ r.diags⟩
          | some _ => ⟨none, ores.diags ++ r.diags⟩
          | none => ⟨none, ores.diags ++ r.diags⟩
termination_by e => sizeOf e

/-- evaluate_expression_short, src/ast.c:1614-1704.  The OP_AND and OP_OR
special case (src/ast.c:1646-1659) evaluates both operands with no
short-circuit, unlike the int and bool evaluators.  The NODE_OPERATION
tail (src/ast.c:1663-1673) selects the read width from
get_expression_type, so a short-promoted operation falls into the final
4-byte int read of the 2-byte slot: undefined behaviour, none. -/
def evaluate_expression_short : Expr → Res Int
  | .intLit n => ⟨some (to_short_int n), []⟩
  | .boolLit b => ⟨some (if b then 1 else 0), []⟩
  | .charLit c => ⟨some (to_short_int c), []⟩
  | .shortLit s => ⟨some s, []⟩
  | .floatLit x => ⟨CFloat.to_short x, ["Cannot use float in integer context"]⟩
  | .doubleLit x => ⟨CFloat.to_short x, ["Cannot use double in integer context"]⟩
  | .binop OP_AND uns l r =>
      let lres := evaluate_expression_short l
      let rres := evaluate_expression_short r
      match lres.val, rres.val with
      | some lv, some rv =>
          ⟨some (if lv ≠ 0 ∧ rv ≠ 0 then 1 else 0), lres.diags ++ rres.diags⟩
      | _, _ => ⟨none, lres.diags ++ rres.diags⟩
  | .binop OP_OR uns l r =>
      let lres := evaluate_expression_short l
      let rres := evaluate_expression_short r
      match lres.val, rres.val with
      | some lv, some rv =>
          ⟨some (if lv ≠ 0 ∨ rv ≠ 0 then 1 else 0), lres.diags ++ rres.diags⟩
      | _, _ => ⟨none, lres.diags ++ rres.diags⟩
  | .binop op uns l r =>
      let result_type := get_expression_type (.binop op uns l r)
      let res := handle_binary_operation op uns l r
      match res.val with
      | none => ⟨none, res.diags⟩
      | some v =>
          if result_type = VAR_SHORT then
            match v with
            | .shortV n => ⟨some n, res.diags⟩
            | _ => ⟨none, res.diags⟩
          else if result_type = VAR_FLOAT then
            match v with
            | .floatV x => ⟨CFloat.to_short x, res.diags⟩
            | _ => ⟨none, res.diags⟩
          else if result_type = VAR_DOUBLE then
            match v with
            | .doubleV x => ⟨CFloat.to_short x, res.diags⟩
            | _ => ⟨none, res.diags⟩
          else
            match v with
            | .intV n => ⟨some (to_short_int n), res.diags⟩
            | _ => ⟨none, res.diags⟩
  | .unary_neg e =>
      let ores := evaluate_expression_short e
      match ores.val with
      | none => ⟨none, ores.diags⟩
      | some ov =>
          let r := handle_unary_expression_neg (.shortV ov)
          match r.val with
          | some (.shortV n) => ⟨some n, ores.diags ++ r.diags⟩
          | some _ => ⟨none, ores.diags ++ r.diags⟩
          | none => ⟨none, ores.diags ++ r.diags⟩
termination_by e => sizeOf e

/-- evaluate_expression_float, src/ast.c:1354-1415.  Note there is no case
for short, boolean or char literal nodes: they fall into the default arm,
which reports an invalid float expression and returns 0.0f
(src/ast.c:1411-1413).  There is also no OP_AND / OP_OR special case. -/
def evaluate_expression_float : Expr → Res CFloat
  | .floatLit x => ⟨some x, []⟩
  | .doubleLit x => ⟨some x, []⟩
  | .intLit n => ⟨some (CFloat.of_int n), []⟩
  | .binop op uns l r =>
      let result_type := get_expression_type (.binop op uns l r)
      let res := handle_binary_operation op uns l r
      match res.val with
      | none => ⟨none, res.diags⟩
      | some v =>
          if result_type = VAR_INT then
            match v with
            | .intV n => ⟨some (CFloat.of_int n), res.diags⟩
            | _ => ⟨none, res.diags⟩
          else if result_type = VAR_FLOAT then
            match v with
            | .floatV x => ⟨some x, res.diags⟩
            | _ => ⟨none, res.diags⟩
          else
            match v with
            | .doubleV x => ⟨some x, res.diags⟩
            | _ => ⟨none, res.diags⟩
  | .unary_neg e =>
      let ores := evaluate_expression_float e
      match ores.val with
      | none => ⟨none, ores.diags⟩
      | some ov =>
          let r := handle_unary_expression_neg (.floatV ov)
          match r.val with
          | some (.floatV x) => ⟨some x, ores.diags ++ r.diags⟩
          | some _ => ⟨none, ores.diags ++ r.diags⟩
          | none => ⟨none, ores.diags ++ r.diags⟩
  | .shortLit _ => ⟨some (.finite 0), ["Invalid float expression"]⟩
  | .boolLit _ => ⟨some (.finite 0), ["Invalid float expression"]⟩
  | .charLit _ => ⟨some (.finite 0), ["Invalid float expression"]⟩
termination_by e => sizeOf e

/-- evaluate_expression_double, src/ast.c:1417-1478.  As with the float
evaluator, short, boolean and char literal nodes fall into the default
arm, reporting an invalid double expression and returning 0.0. -/
def evaluate_expression_double : Expr → Res CFloat
  | .doubleLit x => ⟨some x, []⟩
  | .floatLit x => ⟨some x, []⟩
  | .intLit n => ⟨some (CFloat.of_int n), []⟩
  | .binop op uns l r =>
      let result_type := get_expression_type (.binop op uns l r)
      let res := handle_binary_operation op uns l r
      match res.val with
      | none => ⟨none, res.diags⟩
      | some v =>
          if result_type = VAR_INT then
            match v with
            | .intV n => ⟨some (CFloat.of_int n), res.diags⟩
            | _ => ⟨none, res.diags⟩
          else if result_type = VAR_FLOAT then
            match v with
            | .floatV x => ⟨some x, res.diags⟩
            | _ => ⟨none, res.diags⟩
          else
            match v with
            | .doubleV x => ⟨some x, res.diags⟩
            | _ => ⟨none, res.diags⟩
  | .unary_neg e =>
      let ores := evaluate_expression_double e
      match ores.val with
      | none => ⟨none, ores.diags⟩
      | some ov =>
          let r := handle_unary_expression_neg (.doubleV ov)
          match r.val with
          | some (.doubleV x) => ⟨some x, ores.diags ++ r.diags⟩
          | some _ => ⟨none, ores.diags ++ r.diags⟩
          | none => ⟨none, ores.diags ++ r.diags⟩
  | .shortLit _ => ⟨some (.finite 0), ["Invalid double expression"]⟩
  | .boolLit _ => ⟨some (.finite 0), ["Invalid double expression"]⟩
  | .charLit _ => ⟨some (.finite 0), ["Invalid double expression"]⟩
termination_by e => sizeOf e

/-- evaluate_expression_bool, src/ast.c:1839-1919, with its short-circuit
OP_AND and OP_OR special cases (src/ast.c:1865-1878). -/
def evaluate_expression_bool : Expr → Res Bool
  | .intLit n => ⟨some (decide (n ≠ 0)), []⟩
  | .shortLit s => ⟨some (decide (s ≠ 0)), []⟩
  | .boolLit b => ⟨some b, []⟩
  | .charLit c => ⟨some (decide (c ≠ 0)), []⟩
  | .floatLit x => ⟨some (CFloat.to_bool x), []⟩
  | .doubleLit x => ⟨some (CFloat.to_bool x), []⟩
  | .binop OP_AND uns l r =>
      let lres := evaluate_expression_bool l
      match lres.val with
      | none => ⟨none, lres.diags⟩
      | some lv =>
          if lv = false then ⟨some false, lres.diags⟩
          else
            let rres := evaluate_expression_bool r
            match rres.val with
            | none => ⟨none, lres.diags ++ rres.diags⟩
            | some rv => ⟨some (lv && rv), lres.diags ++ rres.diags⟩
  | .binop OP_OR uns l r =>
      let lres := evaluate_expression_bool l
      match lres.val with
      | none => ⟨none, lres.diags⟩
      | some lv =>
          if lv = true then ⟨some true, lres.diags⟩
          else
            let rres := evaluate_expression_bool r
            match rres.val with
            | none => ⟨none, lres.diags ++ rres.diags⟩
            | some rv => ⟨some (lv || rv), lres.diags ++ rres.diags⟩
  | .binop op uns l r =>
      let result_type := get_expression_type (.binop op uns l r)
      let res := handle_binary_operation op uns l r
      match res.val with
      | none => ⟨none, res.diags⟩
      | some v =>
          if result_type = VAR_INT then
            match v with
            | .intV n => ⟨some (decide (n ≠ 0)), res.diags⟩
            | _ => ⟨none, res.diags⟩
          else if result_type = VAR_FLOAT then
            match v with
            | .floatV x => ⟨some (CFloat.to_bool x), res.diags⟩
            | _ => ⟨none, res.diags⟩
          else
            match v with
            | .doubleV x => ⟨some (CFloat.to_bool x), res.diags⟩
            | _ => ⟨none, res.diags⟩
  | .unary_neg e =>
      let ores := evaluate_expression_bool e
      match ores.val with
      | none => ⟨none, ores.diags⟩
      | some ov =>
          let r := handle_unary_expression_neg (.boolV ov)
          match r.val with
          | some (.boolV b) => ⟨some b, ores.diags ++ r.diags⟩
          | some _ => ⟨none, ores.diags ++ r.diags⟩
          | none => ⟨none, ores.diags ++ r.diags⟩
termination_by e => sizeOf e

/-- handle_binary_operation, src/ast.c:890-1169: determine the operand
types, compute the promoted type, evaluate both operand slots at the
promoted type (src/ast.c:915-960, with the explicit casts applied to
int-typed operands under float and double promotion), then apply the
operator switch to the slots. -/
def handle_binary_operation (op : BinOp) (uns : Bool) (l r : Expr) : Res CValue :=
  let left_type := get_expression_type l
  let right_type := get_expression_type r
  let promoted_type := promote_type left_type right_type
  match promoted_type with
  | VAR_INT =>
      let lres := evaluate_expression_int l
      let rres := evaluate_expression_int r
      match lres.val, rres.val with
      | some lv, some rv =>
          let a := apply_binary_operator op uns VAR_INT (.intV lv) (.intV rv)
          ⟨a.val, lres.diags ++ rres.diags ++ a.diags⟩
      | _, _ => ⟨none, lres.diags ++ rres.diags⟩
  | VAR_FLOAT =>
      let lres :=
        if left_type = VAR_INT then
          let t := evaluate_expression_int l
          Res.mk (t.val.map CFloat.of_int) t.diags
        else evaluate_expression_float l
      let rres :=
        if right_type = VAR_INT then
          let t := evaluate_expression_int r
          Res.mk (t.val.map CFloat.of_int) t.diags
        else evaluate_expression_float r
      match lres.val, rres.val with
      | some lv, some rv =>
          let a := apply_binary_operator op uns VAR_FLOAT (.floatV lv) (.floatV rv)
          ⟨a.val, lres.diags ++ rres.diags ++ a.diags⟩
      | _, _ => ⟨none, lres.diags ++ rres.diags⟩
  | VAR_DOUBLE =>
      let lres :=
        if left_type = VAR_INT then
          let t := evaluate_expression_int l
          Res.mk (t.val.map CFloat.of_int) t.diags
        else if left_type = VAR_FLOAT then evaluate_expression_float l
        else evaluate_expression_double l
      let rres :=
        if right_type = VAR_INT then
          let t := evaluate_expression_int r
          Res.mk (t.val.map CFloat.of_int) t.diags
        else if right_type = VAR_FLOAT then evaluate_expression_float r
        else evaluate_expression_double r
      match lres.val, rres.val with
      | some lv, some rv =>
          let a := apply_binary_operator op uns VAR_DOUBLE (.doubleV lv) (.doubleV rv)
          ⟨a.val, lres.diags ++ rres.diags ++ a.diags⟩
      | _, _ => ⟨none, lres.diags ++ rres.diags⟩
  | VAR_SHORT =>
      let lres := evaluate_expression_short l
      let rres := evaluate_expression_short r
      match lres.val, rres.val with
      | some lv, some rv =>
          let a := apply_binary_operator op uns VAR_SHORT (.shortV lv) (.shortV rv)
          ⟨a.val, lres.diags ++ rres.diags ++ a.diags⟩
      | _, _ => ⟨none, lres.diags ++ rres.diags⟩
  | _ => ⟨none, ["Unsupported type promotion"]⟩
termination_by 1 + sizeOf l + sizeOf r

end

/-- is_expression, src/ast.c:2026-2067, on the modelled node kinds: for an
operation node it compares the promoted expression type, and in the
default arm it compares the node kind against the node kind associated to
the queried VarType (the VART_TO_NODET macro), which is false for unary
nodes. -/
def is_expression (e : Expr) (ty : VarType) : Bool :=
  match e with
  | .binop op uns l r => get_expression_type (.binop op uns l r) = ty
  | .intLit _ => ty = VAR_INT
  | .shortLit _ => ty = VAR_SHORT
  | .floatLit _ => ty = VAR_FLOAT
  | .doubleLit _ => ty = VAR_DOUBLE
  | .boolLit _ => ty = VAR_BOOL
  | .charLit _ => ty = VAR_CHAR
  | .unary_neg _ => false

/-- evaluate_expression, src/ast.c:2095-2110: dispatch to the typed
evaluator selected by is_expression and convert the result to int. -/
def evaluate_expression (e : Expr) : Res Int :=
  if is_expression e VAR_SHORT then
    let r := evaluate_expression_short e
    ⟨r.val.map to_short_int, r.diags⟩
  else if is_expression e VAR_FLOAT then
    let r := evaluate_expression_float e
    match r.val with
    | some x => ⟨CFloat.to_int x, r.diags⟩
    | none => ⟨none, r.diags⟩
  else if is_expression e VAR_DOUBLE then
    let r := evaluate_expression_double e
    match r.val with
    | some x => ⟨CFloat.to_int x, r.diags⟩
    | none => ⟨none, r.diags⟩
  else evaluate_expression_int e

/-! ## Array store: calculate_array_offset -/

/-- The fields of the Variable struct consulted by calculate_array_offset:
the is_array flag and the declared dimension extents
(array_dimensions.dimensions, with num_dimensions equal to the length). -/
structure ArrayVariable where
  is_array : Bool
  dimensions : List Int
deriving DecidableEq, Repr

/-- A fatal bounds error of calculate_array_offset, carrying the data
embedded in the message at src/ast.c:236-239: the reported dimension
number (i + 1), the offending index and the extent. -/
structure BoundsFault where
  dim : Nat
  index : Int
  size : Int
deriving DecidableEq, Repr

/-- The bounds-checked accumulation loop of calculate_array_offset,
src/ast.c:230-251, over the index/extent pairs that survive the
truncation: each index is checked against its extent (a violation is a
fatal error reporting dimension pos + 1, the index and the extent), and
the multiplier of an index is the product of the remaining extents of the
truncated list (the inner loop bound at src/ast.c:246 is num_indices, not
the declared dimension count). -/
def array_offset_loop (pos : Nat) : List Int → List Int → Except BoundsFault Int
  | i :: irest, d :: drest =>
      if i < 0 ∨ d ≤ i then .error ⟨pos + 1, i, d⟩
      else
        match array_offset_loop (pos + 1) irest drest with
        | .error e => .error e
        | .ok rest => .ok (i * drest.prod + rest)
  | _, _ => .ok 0

/-- calculate_array_offset, src/ast.c:203-254.  A non-array variable gives
offset 0; a mismatched index count is tolerated by truncating to the
shorter of the two lists (with offset 0 when no usable index remains);
otherwise the row-major loop runs over all pairs. -/
def calculate_array_offset (var : ArrayVariable) (indices : List Int) :
    Except BoundsFault Int :=
  if var.is_array = false then .ok 0
  else if indices.length ≠ var.dimensions.length then
    let actual_indices := min indices.length var.dimensions.length
    if actual_indices = 0 then .ok 0
    else
      array_offset_loop 0 (indices.take actual_indices)
        (var.dimensions.take actual_indices)
  else array_offset_loop 0 indices var.dimensions

/-- The row-major flattening formula as stated by the specification: the
sum over the supplied positions of index_i times the product of the
extents at the later positions. -/
def row_major_offset (indices dims : List Int) : Int :=
  ∑ i ∈ Finset.range indices.length, indices.getD i 0 * (dims.drop (i + 1)).prod

/-! ## Interpreter state: values, scopes, statements, functions -/

/-- Non-local control outcome of executing a statement, the structured
equivalent of the jump-buffer discipline: norm is ordinary completion,
jmp is a longjmp to the top of the jump-buffer stack (break, or the
unwind of a return), halt is process termination (exit / ragequit),
ub marks that the C code reached undefined behaviour, and outOfFuel
reports exhaustion of the step budget of the model. -/
inductive Sig where
  | norm
  | jmp
  | halt
  | ub
  | outOfFuel
deriving DecidableEq, Repr

/-- The Variable record fields used by the modelled operations.  A freshly
created variable (variable_new, src/ast.c:2846-2857) only has its name and
is_array initialized; the other fields are modelled with fixed defaults
until the first store. -/
structure Variable where
  var_type : VarType
  value : CValue
  is_const : Bool
  is_array : Bool
deriving DecidableEq, Repr

/-- A lexical scope (struct Scope): the hash map from names to Variables,
modelled as an association list with distinct keys, plus the
function-boundary flag.  The parent pointer is represented by the order
of the scope-chain list, innermost first.  The allocator of the project
(lib/mem.h, not part of the provided sources) zero-initializes, so a
scope created by enter_scope has the boundary flag false; only
enter_function_scope sets it (src/ast.c:3135). -/
structure Scope where
  vars : List (String × Variable)
  is_function_scope : Bool
deriving DecidableEq, Repr

/-- Lookup of a name in one scope (hm_get on scope->variables). -/
def hm_get (scope : Scope) (name : String) : Option Variable :=
  (scope.vars.find? (fun p => p.1 == name)).map (fun p => p.2)

/-- get_variable, src/ast.c:2802-2819: walk the scope chain from the
current scope; return the first binding found; stop without searching
further after an unsuccessful search of a function-boundary scope. -/
def get_variable (scopes : List Scope) (name : String) : Option Variable :=
  match scopes with
  | [] => none
  | scope :: rest =>
      match hm_get scope name with
      | some var => some var
      | none =>
          if scope.is_function_scope then none
          else get_variable rest name

/-- set_variable, src/ast.c:45-81: locate the binding with the same walk
as get_variable and overwrite its modifiers, type tag and value; none
when the walk finds no binding (the C function returns false). -/
def set_variable (scopes : List Scope) (name : String) (v : CValue)
    (ty : VarType) (mods_const : Bool) : Option (List Scope) :=
  match scopes with
  | [] => none
  | scope :: rest =>
      match hm_get scope name with
      | some var =>
          some ({ scope with
                    vars := scope.vars.map
                      (fun p =>
                        if p.1 = name then
                          (p.1, { var with var_type := ty, value := v,
                                           is_const := mods_const })
                        else p) } :: rest)
      | none =>
          if scope.is_function_scope then none
          else (set_variable rest name v ty mods_const).map (fun r2 => scope :: r2)

/-- Statement nodes of the AST fragment needed by the claims: declaration
with initializer (the NODE_DECLARATION case falls through into the
NODE_ASSIGNMENT logic, src/ast.c:2241-2345), the integer print statement
(the non-string arm of NODE_PRINT_STATEMENT, src/ast.c:2395-2399), break,
return, statement lists, the for statement, the switch statement (cases
are label/body pairs, a default case has no label) and user function
calls.  While loops, if statements, assignments outside declarations,
array statements and built-in calls are not needed by any claim. -/
inductive Stmt where
  | decl (declared_type : VarType) (name : String) (rhs : Expr)
  | printStmt (e : Expr)
  | breakStmt
  | returnStmt (e : Option Expr)
  | stmtList (stmts : List Stmt)
  | forStmt (init : Option Stmt) (cond : Option Expr) (incr : Option Stmt)
      (body : Option Stmt)
  | switchStmt (ctrl : Expr) (cases : List (Option Expr × Stmt))
  | funcCall (name : String) (args : List Expr)

/-- A function registry entry (struct Function): name, return type,
parameter list (name and declared type; modifiers are not needed by any
claim) and the body AST reference. -/
structure FunctionDef where
  name : String
  return_type : VarType
  parameters : List (String × VarType)
  body : Stmt

/-- get_function, src/ast.c:2069-2081: hash-map lookup by name. -/
def get_function (functions : List (String × FunctionDef)) (name : String) :
    Option FunctionDef :=
  (functions.find? (fun p => p.1 == name)).map (fun p => p.2)

/-- create_function, src/ast.c:2893-2921: if the name is already
registered, return the existing entry unchanged; otherwise build the
entry and insert it.  Returns the updated registry and the entry. -/
def create_function (functions : List (String × FunctionDef)) (name : String)
    (return_type : VarType) (params : List (String × VarType)) (body : Stmt) :
    List (String × FunctionDef) × FunctionDef :=
  match get_function functions name with
  | some existing => (functions, existing)
  | none =>
      let func : FunctionDef := ⟨name, return_type, params, body⟩
      (functions ++ [(name, func)], func)

/-- The global interpreter state threaded through execution: the scope
chain (current_scope, innermost first), the function registry
(function_map), counters of scope pushes and pops (for the LIFO claim),
the values printed through the integer arm of the print statement, the
yyerror diagnostics, and the three fields of current_return_value. -/
structure InterpState where
  scopes : List Scope
  functions : List (String × FunctionDef)
  enters : Nat
  exits : Nat
  out : List Int
  err : List String
  crv_type : VarType
  crv_has : Bool
  crv_val : CValue

/-- enter_scope, src/ast.c:2842-2845: push a fresh scope whose parent is
the current scope.  The push counter records the operation. -/
def enter_scope (st : InterpState) : InterpState :=
  { st with scopes := ⟨[], false⟩ :: st.scopes, enters := st.enters + 1 }

/-- exit_scope, src/ast.c:2821-2832: popping with no current scope is a
fatal error; otherwise the current scope and its variables are discarded
and the parent becomes current.  The pop counter records the operation. -/
def exit_scope (st : InterpState) : InterpState × Sig :=
  match st.scopes with
  | [] => ({ st with err := st.err ++ ["No scope to exit"] }, .halt)
  | _ :: rest => ({ st with scopes := rest, exits := st.exits + 1 }, .norm)

/-- add_variable_to_scope, src/ast.c:2859-2878: inserting a name already
present in the current scope is a fatal redefinition error; otherwise the
variable is inserted into the current scope. -/
def add_variable_to_scope (st : InterpState) (name : String) (var : Variable) :
    InterpState × Sig :=
  match st.scopes with
  | [] => ({ st with err := st.err ++ ["No scope to add variable to"] }, .halt)
  | scope :: rest =>
      if (hm_get scope name).isSome then
        ({ st with err := st.err ++ ["Variable already exists in current scope"] },
         .halt)
      else
        ({ st with
             scopes := { scope with vars := scope.vars ++ [(name, var)] }
               :: rest },
         .norm)

/-- The default payload of a variable fresh from variable_new
(src/ast.c:2846-2857): only is_array is initialized by the code; the
other fields are given fixed defaults in the model. -/
def variable_new : Variable := ⟨NONE, .intV 0, false, false⟩

/-- check_const_assignment, src/ast.c:2015-2023: assigning to a const
variable reports the violation and terminates via ragequit. -/
def check_const_assignment (st : InterpState) (name : String) :
    InterpState × Sig :=
  match get_variable st.scopes name with
  | some var =>
      if var.is_const then
        ({ st with err := st.err ++ ["Cannot modify const variable"] }, .halt)
      else (st, .norm)
  | none => (st, .norm)

/-- The argument-evaluation loop of enter_function_scope,
src/ast.c:3094-3124: each argument expression is evaluated in the caller
environment at the declared type of the parameter it is paired with; the
loop runs while both lists are nonempty.  Returns none when the C code
returns early (string parameter) or an evaluation reaches undefined
behaviour. -/
def eval_args_loop : List (Expr × (String × VarType)) → List String →
    Option (List CValue × List String)
  | [], diags => some ([], diags)
  | (arg, (_, ptype)) :: rest, diags =>
      let one : Option (CValue × List String) :=
        match ptype with
        | VAR_INT =>
            let r := evaluate_expression_int arg
            r.val.map (fun n => (.intV n, r.diags))
        | VAR_CHAR =>
            let r := evaluate_expression_int arg
            r.val.map (fun n => (.intV n, r.diags))
        | VAR_FLOAT =>
            let r := evaluate_expression_float arg
            r.val.map (fun x => (.floatV x, r.diags))
        | VAR_DOUBLE =>
            let r := evaluate_expression_double arg
            r.val.map (fun x => (.doubleV x, r.diags))
        | VAR_BOOL =>
            let r := evaluate_expression_bool arg
            r.val.map (fun b => (.boolV b, r.diags))
        | VAR_SHORT =>
            let r := evaluate_expression_short arg
            r.val.map (fun n => (.shortV n, r.diags))
        | VAR_STRING => none
        | NONE => some (.intV 0, [])
      match one with
      | none => none
      | some (v, d) =>
          match eval_args_loop rest (diags ++ d) with
          | none => none
          | some (vs, ds) => some (v :: vs, ds)

/-- The parameter-binding loop of enter_function_scope,
src/ast.c:3140-3173: each parameter is inserted into the new function
scope and then assigned its evaluated value at its declared type. -/
def bind_params_loop (st : InterpState) :
    List ((String × VarType) × CValue) → InterpState × Sig
  | [] => (st, .norm)
  | ((pname, ptype), v) :: rest =>
      let (st1, sg) := add_variable_to_scope st pname
        { variable_new with var_type := ptype }
      match sg with
      | .norm =>
          match set_variable st1.scopes pname v ptype false with
          | some scopes2 => bind_params_loop { st1 with scopes := scopes2 } rest
          | none => (st1, .halt)
      | s => (st1, s)

/-- enter_function_scope, src/ast.c:3083-3175.  The stored parameter list
is reversed (src/ast.c:3090) before pairing with the arguments; the
arguments are evaluated in the caller environment before any scope is
created; a leftover argument or parameter is the arity mismatch, which
reports a diagnostic and returns with no scope created and no parameter
bound (yyerror does not terminate, src/unnamed/part_000:375-377); on the
matched path, a fresh scope flagged as a function boundary is pushed
(create_scope at src/ast.c:3133-3135; the push counter records it) and
the parameters are bound. -/
def enter_function_scope (st : InterpState) (func : FunctionDef)
    (args : List Expr) : InterpState × Sig :=
  let params := func.parameters.reverse
  match eval_args_loop (args.zip params) [] with
  | none =>
      ({ st with err := st.err ++ ["String parameters are not supported"] }, .norm)
  | some (arg_values, diags) =>
      let st1 := { st with err := st.err ++ diags }
      if args.length ≠ params.length then
        ({ st1 with
             err := st1.err ++ ["Mismatched number of arguments and parameters"] },
         .norm)
      else
        let st2 := { st1 with
                       scopes := ⟨[], true⟩ :: st1.scopes,
                       enters := st1.enters + 1 }
        bind_params_loop st2 (params.zip arg_values)

/-- handle_return_statement scope unwinding, src/ast.c:2986-2989: pop
scopes until the current scope is a function boundary (or the chain is
exhausted). -/
def pop_to_function_scope (st : InterpState) : InterpState :=
  match h : st.scopes with
  | [] => st
  | scope :: rest =>
      if scope.is_function_scope then st
      else pop_to_function_scope { st with scopes := rest, exits := st.exits + 1 }
termination_by st.scopes.length
decreasing_by simp [h]

/-- Helper for the set_X_variable store of the declaration/assignment path
(src/ast.c:2290-2344): a failed lookup only reports the failure message,
it does not terminate. -/
def set_variable_or_diag (st : InterpState) (name : String) (v : CValue)
    (ty : VarType) (failmsg : String) : InterpState × Sig :=
  match set_variable st.scopes name v ty false with
  | some scopes2 => ({ st with scopes := scopes2 }, .norm)
  | none => ({ st with err := st.err ++ [failmsg] }, .norm)

/-- handle_return_statement, src/ast.c:2958-2996: record that a return
value is pending, evaluate the return expression at the declared return
type of the callee, pop every scope up to the function boundary, and, when
a jump buffer is active, pop the function scope itself and transfer to the
innermost active setjmp (src/ast.c:2991-2995).  A top-level return with no
active jump buffer completes normally. -/
def handle_return_statement (jb : Nat) (st : InterpState) (e : Option Expr) :
    InterpState × Sig :=
  let st0 := { st with crv_has := true }
  let stepped : InterpState × Sig :=
    match e with
    | none => (st0, .norm)
    | some expr =>
        match st0.crv_type with
        | VAR_INT =>
            let r := evaluate_expression_int expr
            let st1 := { st0 with err := st0.err ++ r.diags }
            match r.val with
            | some n => ({ st1 with crv_val := .intV n }, .norm)
            | none => (st1, .ub)
        | VAR_FLOAT =>
            let r := evaluate_expression_float expr
            let st1 := { st0 with err := st0.err ++ r.diags }
            match r.val with
            | some x => ({ st1 with crv_val := .floatV x }, .norm)
            | none => (st1, .ub)
        | VAR_DOUBLE =>
            let r := evaluate_expression_double expr
            let st1 := { st0 with err := st0.err ++ r.diags }
            match r.val with
            | some x => ({ st1 with crv_val := .doubleV x }, .norm)
            | none => (st1, .ub)
        | VAR_BOOL =>
            let r := evaluate_expression_bool expr
            let st1 := { st0 with err := st0.err ++ r.diags }
            match r.val with
            | some b => ({ st1 with crv_val := .boolV b }, .norm)
            | none => (st1, .ub)
        | VAR_SHORT =>
            let r := evaluate_expression_short expr
            let st1 := { st0 with err := st0.err ++ r.diags }
            match r.val with
            | some n => ({ st1 with crv_val := .shortV n }, .norm)
            | none => (st1, .ub)
        | _ => ({ st0 with err := st0.err ++ ["Unsupported return type"] }, .halt)
  match stepped with
  | (st1, .norm) =>
      let st2 := pop_to_function_scope st1
      if 0 < jb then
        let (st3, sg) := exit_scope st2
        match sg with
        | .norm => (st3, .jmp)
        | s => (st3, s)
      else (st2, .norm)
  | other => other

/-- The condition test of a for-loop iteration, src/ast.c:2496-2503: no
condition means the loop proceeds; otherwise the condition is evaluated
(its diagnostics recorded) and a zero value leaves the loop.  The second
component is none to proceed with the iteration, and some sg to leave the
while(1) loop with outcome sg. -/
def for_cond_test (st : InterpState) : Option Expr → InterpState × Option Sig
  | some c =>
      let r := evaluate_expression c
      let st2 := { st with err := st.err ++ r.diags }
      match r.val with
      | none => (st2, some .ub)
      | some v => if v = 0 then (st2, some .norm) else (st2, none)
  | none => (st, none)

mutual

/-- execute_statement, src/ast.c:2233-2461, on the modelled statement
kinds.  The jb argument is the depth of the global jump-buffer stack (the
PUSH_JUMP_BUFFER / POP_JUMP_BUFFER macros of ast.h, modelled per the
specification as a stack of unwind targets where a longjmp transfers to
the innermost active setjmp; the macro header is not among the provided
sources).  Constructs that push a buffer and run a setjmp-protected block
execute the block at depth jb + 1 and catch the jmp outcome; note the
protected block of the for statement contains both exit_scope calls
(src/ast.c:2516 and 2518), so a longjmp skips them.  The fuel argument
only bounds the depth of the run in the model; every theorem supplies
enough of it. -/
def execute_statement : Nat → Nat → InterpState → Stmt → InterpState × Sig
  | 0, _, st, _ => (st, .outOfFuel)
  | fuel+1, jb, st, s =>
      match s with
      | .decl declared_type name rhs =>
          match add_variable_to_scope st name variable_new with
          | (st1, .norm) =>
              match check_const_assignment st1 name with
              | (st2, .norm) =>
                  match rhs with
                  | .charLit c =>
                      set_variable_or_diag st2 name (.intV c) VAR_CHAR
                        "Failed to set character variable"
                  | .boolLit b =>
                      set_variable_or_diag st2 name (.boolV b) VAR_BOOL
                        "Failed to set boolean variable"
                  | .shortLit sv =>
                      set_variable_or_diag st2 name (.shortV sv) VAR_SHORT
                        "Failed to set short variable"
                  | rhs2 =>
                      if declared_type = VAR_FLOAT ∨ is_expression rhs2 VAR_FLOAT then
                        let r := evaluate_expression_float rhs2
                        let st3 := { st2 with err := st2.err ++ r.diags }
                        match r.val with
                        | some x =>
                            set_variable_or_diag st3 name (.floatV x) VAR_FLOAT
                              "Failed to set float variable"
                        | none => (st3, .ub)
                      else if declared_type = VAR_DOUBLE ∨
                          is_expression rhs2 VAR_DOUBLE then
                        let r := evaluate_expression_double rhs2
                        let st3 := { st2 with err := st2.err ++ r.diags }
                        match r.val with
                        | some x =>
                            set_variable_or_diag st3 name (.doubleV x) VAR_DOUBLE
                              "Failed to set double variable"
                        | none => (st3, .ub)
                      else
                        let r := evaluate_expression_int rhs2
                        let st3 := { st2 with err := st2.err ++ r.diags }
                        match r.val with
                        | some n =>
                            set_variable_or_diag st3 name (.intV n) VAR_INT
                              "Failed to set integer variable"
                        | none => (st3, .ub)
              | (st2, sg) => (st2, sg)
          | (st1, sg) => (st1, sg)
      | .printStmt e =>
          let r := evaluate_expression e
          let st1 := { st with err := st.err ++ r.diags }
          match r.val with
          | some v => ({ st1 with out := st1.out ++ [v] }, .norm)
          | none => (st1, .ub)
      | .breakStmt =>
          if jb = 0 then (st, .ub) else (st, .jmp)
      | .returnStmt e => handle_return_statement jb st e
      | .stmtList stmts => execute_statements_list (fuel+1) jb st stmts
      | .forStmt init cond incr body =>
          match exec_opt_stmt fuel (jb+1) (enter_scope st) init with
          | (st2, .norm) =>
              match for_loop fuel (jb+1) st2 cond incr body with
              | (st3, .norm) => exit_scope st3
              | (st3, .jmp) => (st3, .norm)
              | (st3, sgx) => (st3, sgx)
          | (st2, .jmp) => (st2, .norm)
          | (st2, sgx) => (st2, sgx)
      | .switchStmt ctrl cases =>
          let r := evaluate_expression ctrl
          let st1 := { st with err := st.err ++ r.diags }
          match r.val with
          | none => (st1, .ub)
          | some v =>
              match switch_scan (fuel+1) (jb+1) st1 v false cases with
              | (st2, .jmp) => (st2, .norm)
              | other => other
      | .funcCall name args => execute_function_call fuel jb st name args
termination_by fuel _ _ s => (fuel, sizeOf s)

/-- Execution of an optional statement slot (the null checks of the for
statement fields, src/ast.c:2487-2515): absent means no effect. -/
def exec_opt_stmt : Nat → Nat → InterpState → Option Stmt → InterpState × Sig
  | _, _, st, none => (st, .norm)
  | fuel, jb, st, some s => execute_statement fuel jb st s
termination_by fuel _ _ o => (fuel, sizeOf o)

/-- execute_statements, src/ast.c:2463-2478: run the statements of a list
in order (a non-normal outcome of one statement transfers control past
the remainder). -/
def execute_statements_list : Nat → Nat → InterpState → List Stmt →
    InterpState × Sig
  | _, _, st, [] => (st, .norm)
  | fuel, jb, st, s :: rest =>
      match execute_statement fuel jb st s with
      | (st1, .norm) => execute_statements_list fuel jb st1 rest
      | other => other
termination_by fuel _ _ l => (fuel, sizeOf l)

/-- The while(1) body of execute_for_statement, src/ast.c:2492-2517: each
iteration pushes a scope, tests the condition (a false condition leaves
the loop with the iteration scope still pushed, to be popped by the
exit_scope after the loop, src/ast.c:2518), runs the body and the
increment, pops the iteration scope and repeats. -/
def for_loop : Nat → Nat → InterpState → Option Expr → Option Stmt →
    Option Stmt → InterpState × Sig
  | 0, _, st, _, _, _ => (st, .outOfFuel)
  | fuel+1, jb, st, cond, incr, body =>
      match for_cond_test (enter_scope st) cond with
      | (st2, some sg) => (st2, sg)
      | (st2, none) =>
          match exec_opt_stmt (fuel+1) jb st2 body with
          | (st3, .norm) =>
              match exec_opt_stmt (fuel+1) jb st3 incr with
              | (st4, .norm) =>
                  match exit_scope st4 with
                  | (st5, .norm) => for_loop fuel jb st5 cond incr body
                  | (st5, sx) => (st5, sx)
              | (st4, sx) => (st4, sx)
          | (st3, sx) => (st3, sx)
termination_by fuel _ _ cond incr body =>
  (fuel, 1 + sizeOf cond + sizeOf incr + sizeOf body)

/-- The case-scan loop of execute_switch_statement, src/ast.c:495-516: a
labelled case evaluates its label and executes its statements when the
label matches the controlling value or a previous case already matched
(the fall-through flag); an unlabelled default case executes its
statements unconditionally when reached and then leaves the scan loop, so
no case after the default is ever reached. -/
def switch_scan : Nat → Nat → InterpState → Int → Bool →
    List (Option Expr × Stmt) → InterpState × Sig
  | _, _, st, _, _, [] => (st, .norm)
  | fuel, jb, st, v, matched, (some labelE, body) :: rest =>
      let r := evaluate_expression labelE
      let st1 := { st with err := st.err ++ r.diags }
      match r.val with
      | none => (st1, .ub)
      | some cv =>
          if cv = v ∨ matched then
            match execute_statement fuel jb st1 body with
            | (st2, .norm) => switch_scan fuel jb st2 v true rest
            | other => other
          else switch_scan fuel jb st1 v matched rest
  | fuel, jb, st, _, _, (none, body) :: _ =>
      execute_statement fuel jb st body
termination_by fuel _ _ _ _ cases => (fuel, sizeOf cases)

/-- execute_function_call, src/ast.c:2923-2956: look up the function
(an unknown name only reports a diagnostic), run enter_function_scope,
initialize current_return_value, and execute the body inside a
setjmp-protected block; when the body completes without a longjmp, the
function scope (when the current scope is one) is popped.  Note the body
is executed regardless of whether enter_function_scope created a scope. -/
def execute_function_call : Nat → Nat → InterpState → String → List Expr →
    InterpState × Sig
  | 0, _, st, _, _ => (st, .outOfFuel)
  | fuel+1, jb, st, name, args =>
      match get_function st.functions name with
      | none => ({ st with err := st.err ++ ["Undefined function"] }, .norm)
      | some func =>
          match enter_function_scope st func args with
          | (st1, .norm) =>
              let st2 := { st1 with crv_type := func.return_type, crv_has := false }
              match execute_statement fuel (jb+1) st2 func.body with
              | (st3, .norm) =>
                  match st3.scopes with
                  | scope :: _ =>
                      if scope.is_function_scope then exit_scope st3
                      else (st3, .norm)
                  | [] => (st3, .norm)
              | (st3, .jmp) => (st3, .norm)
              | other => other
          | (st1, sg) => (st1, sg)
termination_by fuel _ _ _ _ => (fuel, 0)

end

/-! ## Specification-side definitions used to state the claims -/

/-- The scopes a lookup may consult, per the specification: the chain from
the current scope up to and including the first function-boundary scope;
scopes beyond the boundary are invisible. -/
def visible_scopes : List Scope → List Scope
  | [] => []
  | s :: rest => if s.is_function_scope then [s] else s :: visible_scopes rest

/-- Rank of a numeric type in the promotion order short < int < float <
double stated by the specification. -/
def promotion_rank : VarType → Nat
  | VAR_SHORT => 0
  | VAR_INT => 1
  | VAR_FLOAT => 2
  | VAR_DOUBLE => 3
  | _ => 0

/-- Whether a type is one of the four numeric types of the promotion
order. -/
def is_numeric (t : VarType) : Bool :=
  t = VAR_SHORT ∨ t = VAR_INT ∨ t = VAR_FLOAT ∨ t = VAR_DOUBLE

/-- Widening of a numeric value to a promoted numeric type, per the
specification wording (both operands are converted to the promoted type
before the operator is applied); none for a narrowing or non-numeric
combination, which promotion never produces. -/
def spec_widen (t : VarType) (v : CValue) : Option CValue :=
  match t, v with
  | VAR_INT, .intV n => some (.intV n)
  | VAR_FLOAT, .intV n => some (.floatV (CFloat.of_int n))
  | VAR_DOUBLE, .intV n => some (.doubleV (CFloat.of_int n))
  | VAR_SHORT, .shortV n => some (.shortV n)
  | VAR_INT, .shortV n => some (.intV n)
  | VAR_FLOAT, .shortV n => some (.floatV (CFloat.of_int n))
  | VAR_DOUBLE, .shortV n => some (.doubleV (CFloat.of_int n))
  | VAR_FLOAT, .floatV x => some (.floatV x)
  | VAR_DOUBLE, .floatV x => some (.doubleV x)
  | VAR_DOUBLE, .doubleV x => some (.doubleV x)
  | _, _ => none

/-- The value a numeric literal node denotes at its own type. -/
def literal_value : Expr → Option CValue
  | .intLit n => some (.intV n)
  | .shortLit n => some (.shortV n)
  | .floatLit x => some (.floatV x)
  | .doubleLit x => some (.doubleV x)
  | _ => none

/-- An interpreter state at program start: one (global) scope, a given
function registry, zeroed counters and no pending return value. -/
def initial_state (functions : List (String × FunctionDef)) : InterpState :=
  ⟨[⟨[], false⟩], functions, 0, 0, [], [], NONE, false, .intV 0⟩

/-- A one-parameter function with an observable body, used to exercise the
argument-arity mismatch path of execute_function_call. -/
def C8func : FunctionDef := ⟨"f", VAR_INT, [("x", VAR_INT)], .printStmt (.intLit 7)⟩

/-- The fall-through runner of the switch claim: once some case has
triggered, the statements of every following case execute in order
regardless of the labels (still evaluated for their diagnostics),
stopping after the statements of a default case, upon a non-normal
outcome (a break longjmp), or at the end of the list. -/
def switch_run_from (fuel jb : Nat) (st : InterpState) (v : Int) :
    List (Option Expr × Stmt) → InterpState × Sig
  | [] => (st, .norm)
  | (some labelE, body) :: rest =>
      let r := evaluate_expression labelE
      let st1 := { st with err := st.err ++ r.diags }
      match r.val with
      | none => (st1, .ub)
      | some _ =>
          match execute_statement fuel jb st1 body with
          | (st2, .norm) => switch_run_from fuel jb st2 v rest
          | other => other
  | (none, body) :: _ => execute_statement fuel jb st body

/-- The scan of the amended switch claim: case labels are inspected in
source order; a non-matching labelled case before the trigger only
contributes the diagnostics of its label evaluation; the trigger is the
first case whose label equals the controlling value, or the first default
case reached; a matching labelled trigger executes its statements and
falls through per switch_run_from; a default trigger executes its
statements and ends the scan. -/
def switch_spec (fuel jb : Nat) (st : InterpState) (v : Int) :
    List (Option Expr × Stmt) → InterpState × Sig
  | [] => (st, .norm)
  | (some labelE, body) :: rest =>
      let r := evaluate_expression labelE
      let st1 := { st with err := st.err ++ r.diags }
      match r.val with
      | none => (st1, .ub)
      | some cv =>
          if cv = v then
            match execute_statement fuel jb st1 body with
            | (st2, .norm) => switch_run_from fuel jb st2 v rest
            | other => other
          else switch_spec fuel jb st1 v rest
  | (none, body) :: _ => execute_statement fuel jb st body

/-! ## Theorems for the claims -/

/-- Claim C1: division and modulo by zero.  The int division, int modulo
and short division arms store the fallback 0 and report a diagnostic, and
double division by zero yields the IEEE-754 infinity or NaN with no
diagnostic — but the short modulo arm (src/ast.c:1083-1086) has no zero
test: a zero divisor reaches the native modulo operator, which is
undefined behaviour (none), with no diagnostic and no fallback, contrary
to the claim. -/
theorem claim_C1_integer_div_mod_zero :
    handle_binary_operation OP_MOD false (.shortLit 5) (.shortLit 0) = ⟨none, []⟩ ∧
    handle_binary_operation OP_MOD false (.intLit 5) (.intLit 0) =
      ⟨some (.intV 0), ["Modulo by zero"]⟩ ∧
    handle_binary_operation OP_DIVIDE false (.intLit 5) (.intLit 0) =
      ⟨some (.intV 0), ["Division by zero"]⟩ ∧
    handle_binary_operation OP_DIVIDE false (.shortLit 5) (.shortLit 0) =
      ⟨some (.shortV 0), ["Division by zero"]⟩ ∧
    handle_binary_operation OP_DIVIDE false (.doubleLit (.finite 5)) (.doubleLit (.finite 0)) =
      ⟨some (.doubleV .pinf), []⟩ ∧
    handle_binary_operation OP_DIVIDE false (.doubleLit (.finite 0)) (.doubleLit (.finite 0)) =
      ⟨some (.doubleV .nan), []⟩ := by
  refine ⟨?_, ?_, ?_, ?_, ?_, ?_⟩ <;>
    simp [handle_binary_operation, get_expression_type, promote_type,
          evaluate_expression_int, evaluate_expression_short, evaluate_expression_double,
          apply_binary_operator, CFloat.div]

/-- Claim C5: unary negation.  The int, float and double arms of the
OP_NEG case apply arithmetic negation and the bool arm applies logical
negation, while any remaining operand type is rejected — but the short
arm (src/ast.c:1182-1187) applies the logical NOT operator: negating the
short value 5 yields 0, not -5 (and the path is reached through
evaluate_expression_short on a negated short operand). -/
theorem claim_C5_unary_negation :
    handle_unary_expression_neg (.shortV 5) = ⟨some (.shortV 0), []⟩ ∧
    (0 : Int) ≠ -5 ∧
    evaluate_expression_short (.unary_neg (.shortLit 5)) = ⟨some 0, []⟩ ∧
    handle_unary_expression_neg (.intV 5) = ⟨some (.intV (-5)), []⟩ ∧
    handle_unary_expression_neg (.floatV (.finite 5)) = ⟨some (.floatV (.finite (-5))), []⟩ ∧
    handle_unary_expression_neg (.doubleV (.finite 5)) = ⟨some (.doubleV (.finite (-5))), []⟩ ∧
    handle_unary_expression_neg (.boolV true) = ⟨some (.boolV false), []⟩ ∧
    handle_unary_expression_neg (.boolV false) = ⟨some (.boolV true), []⟩ ∧
    handle_unary_expression_neg (.strV "s") = ⟨none, ["Invalid type for unary negation"]⟩ := by
  refine ⟨?_, by decide, ?_, ?_, ?_, ?_, ?_, ?_, ?_⟩ <;>
    simp [handle_unary_expression_neg, evaluate_expression_short, CFloat.neg]

/-- Claim C3: name lookup walks from the current scope toward the root,
returns the first binding found (inner declarations shadow outer ones),
and does not continue past a function-boundary scope: get_variable
coincides with a first-match search over exactly the scopes up to and
including the first function boundary, so a name present only beyond the
boundary is reported as not found. -/
theorem claim_C3_get_variable_visible (scopes : List Scope) (name : String) :
    get_variable scopes name =
      (visible_scopes scopes).findSome? (fun s => hm_get s name) := by
  induction scopes with
  | nil => simp [get_variable, visible_scopes]
  | cons s rest ih =>
      by_cases hf : s.is_function_scope
      · cases h : hm_get s name <;>
          simp [get_variable, visible_scopes, hf, h, List.findSome?]
      · cases h : hm_get s name <;>
          simp [get_variable, visible_scopes, hf, h, List.findSome?, ih]

/-- Claim C9: function definition is idempotent with first-definition-wins:
a define of an already-registered name returns the existing entry and
leaves the registry unchanged; a fresh name inserts the new entry; hence
defining the same name twice (even with a different signature and body)
leaves the registry exactly as after the first definition and returns the
first entry. -/
theorem claim_C9_create_function_idempotent (functions : List (String × FunctionDef))
    (name : String) (rt rt2 : VarType) (params params2 : List (String × VarType))
    (body body2 : Stmt) :
    (∀ f, get_function functions name = some f →
        create_function functions name rt params body = (functions, f)) ∧
    (get_function functions name = none →
        create_function functions name rt params body =
          (functions ++ [(name, ⟨name, rt, params, body⟩)],
           (⟨name, rt, params, body⟩ : FunctionDef))) ∧
    (create_function (create_function functions name rt params body).1 name
        rt2 params2 body2 =
      ((create_function functions name rt params body).1,
       (create_function functions name rt params body).2)) := by
  refine ⟨?_, ?_, ?_⟩
  · intro f hf; simp [create_function, hf]
  · intro hf; simp [create_function, hf]
  · cases h : get_function functions name with
    | some f => simp [create_function, h]
    | none =>
        have hfind : functions.find? (fun p => p.1 == name) = none := by
          simpa [get_function, Option.map_eq_none'] using h
        have h2 : get_function (functions ++ [(name, (⟨name, rt, params, body⟩ : FunctionDef))]) name
            = some ⟨name, rt, params, body⟩ := by
          simp [get_function, List.find?_append, hfind]
        simp [create_function, h, h2]

/-- Witness for claim C9 at a concrete registry: defining f in the empty
registry inserts it, and a second define of f with a different return
type and body returns the first entry and leaves the registry unchanged. -/
theorem claim_C9_witness :
    create_function [] "f" VAR_INT [] (.stmtList []) =
      ([("f", ⟨"f", VAR_INT, [], .stmtList []⟩)],
       (⟨"f", VAR_INT, [], .stmtList []⟩ : FunctionDef)) ∧
    create_function (create_function [] "f" VAR_INT [] (.stmtList [])).1 "f"
        VAR_BOOL [] (.printStmt (.intLit 1)) =
      ((create_function [] "f" VAR_INT [] (.stmtList [])).1,
       (create_function [] "f" VAR_INT [] (.stmtList [])).2) := by
  constructor
  · exact (claim_C9_create_function_idempotent [] "f" VAR_INT VAR_BOOL [] []
      (.stmtList []) (.printStmt (.intLit 1))).2.1 (by simp [get_function])
  · exact (claim_C9_create_function_idempotent [] "f" VAR_INT VAR_BOOL [] []
      (.stmtList []) (.printStmt (.intLit 1))).2.2

/-- Claim C2: the scope push/pop balance.  Executing a for statement whose
condition is initially false performs two scope pushes but only one pop
(the loop scope entered at src/ast.c:2486 is never popped: the exit_scope
at src/ast.c:2518 pops the last iteration scope), the loop completes
normally, and the init-clause variable i remains resolvable after the
loop; executing a for statement whose body breaks performs two pushes and
no pop at all, because the longjmp of the break transfers past both
exit_scope calls of the protected block.  Both outcomes contradict the
claimed equality of push and pop counts and the claimed unresolvability. -/
theorem claim_C2_for_scope_leak :
    (execute_statement 8 0 (initial_state [])
        (.forStmt (some (.decl VAR_INT "i" (.intLit 0))) (some (.intLit 0)) none none)).1.enters
      = 2 ∧
    (execute_statement 8 0 (initial_state [])
        (.forStmt (some (.decl VAR_INT "i" (.intLit 0))) (some (.intLit 0)) none none)).1.exits
      = 1 ∧
    (execute_statement 8 0 (initial_state [])
        (.forStmt (some (.decl VAR_INT "i" (.intLit 0))) (some (.intLit 0)) none none)).2
      = .norm ∧
    get_variable
        (execute_statement 8 0 (initial_state [])
          (.forStmt (some (.decl VAR_INT "i" (.intLit 0))) (some (.intLit 0)) none none)).1.scopes
        "i" = some ⟨VAR_INT, .intV 0, false, false⟩ ∧
    (execute_statement 8 0 (initial_state [])
        (.forStmt none none none (some .breakStmt))).1.enters = 2 ∧
    (execute_statement 8 0 (initial_state [])
        (.forStmt none none none (some .breakStmt))).1.exits = 0 ∧
    (execute_statement 8 0 (initial_state [])
        (.forStmt none none none (some .breakStmt))).2 = .norm := by
  refine ⟨?_, ?_, ?_, ?_, ?_, ?_, ?_⟩ <;>
    simp [execute_statement, for_loop, exec_opt_stmt, for_cond_test, initial_state,
          enter_scope, exit_scope, add_variable_to_scope, variable_new,
          check_const_assignment, get_variable, hm_get, set_variable,
          set_variable_or_diag, evaluate_expression, is_expression,
          evaluate_expression_int, evaluate_expression_short,
          evaluate_expression_float, evaluate_expression_double, get_expression_type]

/-- Helper for claim C4: once the fall-through flag is set, the scan
executes the statements of every remaining case regardless of labels,
stopping after a default case, a non-normal outcome, or the end. -/
theorem switch_scan_matched (fuel jb : Nat) (v : Int) :
    ∀ (cases : List (Option Expr × Stmt)) (st : InterpState),
      switch_scan fuel jb st v true cases = switch_run_from fuel jb st v cases := by
  intro cases
  induction cases with
  | nil => intro st; simp [switch_scan, switch_run_from]
  | cons c rest ih =>
      intro st
      obtain ⟨lbl, body⟩ := c
      cases lbl with
      | none => simp [switch_scan, switch_run_from]
      | some labelE =>
          simp only [switch_scan, switch_run_from]
          cases h : (evaluate_expression labelE).val with
          | none => simp [h]
          | some cv =>
              simp only [h]
              cases hb : execute_statement fuel jb
                  { st with err := st.err ++ (evaluate_expression labelE).diags } body with
              | mk st2 sg => cases sg <;> simp [hb, ih]

/-- Helper for claim C4: the scan with the flag clear equals the
find-the-trigger-then-fall-through description of switch_spec. -/
theorem switch_scan_unmatched (fuel jb : Nat) (v : Int) :
    ∀ (cases : List (Option Expr × Stmt)) (st : InterpState),
      switch_scan fuel jb st v false cases = switch_spec fuel jb st v cases := by
  intro cases
  induction cases with
  | nil => intro st; simp [switch_scan, switch_spec]
  | cons c rest ih =>
      intro st
      obtain ⟨lbl, body⟩ := c
      cases lbl with
      | none => simp [switch_scan, switch_spec]
      | some labelE =>
          simp only [switch_scan, switch_spec]
          cases h : (evaluate_expression labelE).val with
          | none => simp [h]
          | some cv =>
              simp only [h]
              by_cases hc : cv = v
              · simp only [hc, true_or, if_true, eq_self_iff_true, or_false]
                cases hb : execute_statement fuel jb
                    { st with err := st.err ++ (evaluate_expression labelE).diags } body with
                | mk st2 sg =>
                    cases sg <;> simp [hb, switch_scan_matched]
              · simp [hc, ih]

/-- Claim C4 as amended: a switch statement evaluates its controlling
expression once, scans the case labels in source order, and triggers at
the first case whose label equals the controlling value or at the first
default case reached; from a matching labelled trigger, execution falls
through the statements of the subsequent cases regardless of their
labels, but the statements of a default case, whenever reached, are
executed and then end the scan (so cases after the default never execute
by fall-through); the scan also stops at a break (the caught longjmp) or
at the end of the case list. -/
theorem claim_C4_switch_semantics (fuel jb : Nat) (st : InterpState) (ctrl : Expr)
    (cases : List (Option Expr × Stmt)) :
    execute_statement (fuel+1) jb st (.switchStmt ctrl cases) =
      (let r := evaluate_expression ctrl
       let st1 := { st with err := st.err ++ r.diags }
       match r.val with
       | none => (st1, .ub)
       | some v =>
           match switch_spec (fuel+1) (jb+1) st1 v cases with
           | (st2, .jmp) => (st2, .norm)
           | other => other) := by
  simp only [execute_statement]
  cases h : (evaluate_expression ctrl).val with
  | none => simp [h]
  | some v => simp [h, switch_scan_unmatched]

/-- Counterexample for claim C4 as stated: with cases 1: print 10,
default: print 30, 2: print 20 and controlling value 1, the claimed
fall-through into every subsequent case would print 10, 30, 20, but the
scan stops after the default case and prints only 10, 30. -/
theorem claim_C4_counterexample :
    (execute_statement 8 0 (initial_state [])
      (.switchStmt (.intLit 1)
        [(some (.intLit 1), .printStmt (.intLit 10)),
         (none, .printStmt (.intLit 30)),
         (some (.intLit 2), .printStmt (.intLit 20))])).1.out = [10, 30] ∧
    (execute_statement 8 0 (initial_state [])
      (.switchStmt (.intLit 1)
        [(some (.intLit 1), .printStmt (.intLit 10)),
         (none, .printStmt (.intLit 30)),
         (some (.intLit 2), .printStmt (.intLit 20))])).2 = .norm ∧
    ([10, 30] : List Int) ≠ [10, 30, 20] := by
  refine ⟨?_, ?_, by decide⟩ <;>
    simp [execute_statement, switch_scan, initial_state, evaluate_expression,
          is_expression, evaluate_expression_int, get_expression_type]

/-- Helper: reading inside the taken prefix of a list equals reading the
list itself. -/
theorem getD_take_lt (l : List Int) : ∀ (n k : Nat), k < n →
    (l.take n).getD k 0 = l.getD k 0 := by
  induction l with
  | nil => intro n k _; simp
  | cons a l ih =>
      intro n k hk
      cases n with
      | zero => omega
      | succ n =>
          cases k with
          | zero => simp
          | succ k => simpa [List.getD_cons_succ] using ih n k (by omega)

/-- The row-major formula of the specification on the empty index list. -/
theorem row_major_offset_nil (ds : List Int) : row_major_offset [] ds = 0 := by
  simp [row_major_offset]

/-- Peeling the first position off the row-major formula of the
specification. -/
theorem row_major_offset_cons (i d : Int) (irest ds : List Int) :
    row_major_offset (i :: irest) (d :: ds) =
      i * ds.prod + row_major_offset irest ds := by
  unfold row_major_offset
  rw [List.length_cons, Finset.sum_range_succ']
  simp [List.getD_cons_succ, List.getD_cons_zero]
  ring

/-- Helper: the offset loop on equal-length in-bounds lists computes the
row-major sum of the specification. -/
theorem array_offset_loop_ok : ∀ (idxs : List Int) (ds : List Int) (pos : Nat),
    idxs.length = ds.length →
    (∀ k, k < idxs.length → 0 ≤ idxs.getD k 0 ∧ idxs.getD k 0 < ds.getD k 0) →
    array_offset_loop pos idxs ds = .ok (row_major_offset idxs ds) := by
  intro idxs
  induction idxs with
  | nil =>
      intro ds pos hlen _
      cases ds with
      | nil => simp [array_offset_loop, row_major_offset_nil]
      | cons d ds => simp at hlen
  | cons i irest ih =>
      intro ds pos hlen hin
      cases ds with
      | nil => simp at hlen
      | cons d drest =>
          have h0 := hin 0 (by simp)
          simp only [List.getD_cons_zero] at h0
          have hcond : ¬(i < 0 ∨ d ≤ i) := by omega
          have hrec := ih drest (pos + 1) (by simpa using hlen)
            (fun k hk => by
              simpa [List.getD_cons_succ] using hin (k + 1) (by simpa using Nat.succ_lt_succ hk))
          simp [array_offset_loop, hcond, hrec, row_major_offset_cons]

/-- Helper: the offset loop reports the first out-of-bounds position k as
a fatal error carrying dimension number pos + k + 1, the offending index
and the extent. -/
theorem array_offset_loop_err : ∀ (idxs : List Int) (ds : List Int) (k pos : Nat),
    idxs.length = ds.length → k < idxs.length →
    (∀ j, j < k → 0 ≤ idxs.getD j 0 ∧ idxs.getD j 0 < ds.getD j 0) →
    (idxs.getD k 0 < 0 ∨ ds.getD k 0 ≤ idxs.getD k 0) →
    array_offset_loop pos idxs ds =
      .error ⟨pos + k + 1, idxs.getD k 0, ds.getD k 0⟩ := by
  intro idxs
  induction idxs with
  | nil => intro ds k pos _ hk _ _; simp at hk
  | cons i irest ih =>
      intro ds k pos hlen hk hpre hbad
      cases ds with
      | nil => simp at hlen
      | cons d drest =>
          cases k with
          | zero =>
              simp only [List.getD_cons_zero] at hbad
              have hcond : i < 0 ∨ d ≤ i := hbad
              simp [array_offset_loop, hcond]
          | succ k =>
              have h0 := hpre 0 (by omega)
              simp only [List.getD_cons_zero] at h0
              have hcond : ¬(i < 0 ∨ d ≤ i) := by omega
              have hrec := ih drest k (pos + 1) (by simpa using hlen)
                (by simpa using hk)
                (fun j hj => by
                  simpa [List.getD_cons_succ] using hpre (j + 1) (by omega))
                (by simpa [List.getD_cons_succ] using hbad)
              have hnat : pos + 1 + k + 1 = pos + (k + 1) + 1 := by omega
              simp [array_offset_loop, hcond, hrec, List.getD_cons_succ, hnat]

/-- Claim C7: full-arity multi-dimensional access.  With one index per
declared dimension, when every index lies within its extent the offset is
the row-major flattening sum of the specification, and when some index is
out of range the first offending dimension produces a fatal error
carrying the 1-based dimension number, the index and the extent. -/
theorem claim_C7_array_offset (var : ArrayVariable) (indices : List Int)
    (ha : var.is_array = true) (hlen : indices.length = var.dimensions.length) :
    ((∀ k, k < indices.length →
        0 ≤ indices.getD k 0 ∧ indices.getD k 0 < var.dimensions.getD k 0) →
      calculate_array_offset var indices = .ok (row_major_offset indices var.dimensions)) ∧
    (∀ k, k < indices.length →
      (∀ j, j < k → 0 ≤ indices.getD j 0 ∧ indices.getD j 0 < var.dimensions.getD j 0) →
      (indices.getD k 0 < 0 ∨ var.dimensions.getD k 0 ≤ indices.getD k 0) →
      calculate_array_offset var indices =
        .error ⟨k + 1, indices.getD k 0, var.dimensions.getD k 0⟩) := by
  constructor
  · intro hin
    simp [calculate_array_offset, ha, hlen, array_offset_loop_ok indices var.dimensions 0 hlen hin]
  · intro k hk hpre hbad
    simpa [calculate_array_offset, ha, hlen] using
      array_offset_loop_err indices var.dimensions k 0 hlen hk hpre hbad

/-- Witness for claim C7 on the extents [3,4] of the specification:
indices (2,3) flatten to offset 2*4+3 = 11, and indices (3,0) are
rejected as out of bounds in dimension 1 with index 3 against extent 3. -/
theorem claim_C7_witness :
    calculate_array_offset ⟨true, [3, 4]⟩ [2, 3] = .ok 11 ∧
    calculate_array_offset ⟨true, [3, 4]⟩ [3, 0] = .error ⟨1, 3, 3⟩ := by
  constructor
  · have h := (claim_C7_array_offset ⟨true, [3, 4]⟩ [2, 3] rfl (by decide)).1 (by decide)
    have hv : row_major_offset [2, 3] [3, 4] = 11 := by
      norm_num [row_major_offset, Finset.sum_range_succ]
    simpa [hv] using h
  · have h := (claim_C7_array_offset ⟨true, [3, 4]⟩ [3, 0] rfl (by decide)).2 0 (by decide)
      (by intro j hj; omega) (by decide)
    simpa using h

/-- Claim C10: an access with fewer indices than declared dimensions is
tolerated: no arity error is raised, the offset is computed from the
supplied indices alone with each stride the product of the extents of
only the following supplied positions (the declared extents truncated to
the supplied count), and an access with zero usable indices yields
offset 0. -/
theorem claim_C10_partial_indices (var : ArrayVariable) (indices : List Int)
    (ha : var.is_array = true) :
    (calculate_array_offset var [] = .ok 0) ∧
    (indices.length < var.dimensions.length →
      (∀ k, k < indices.length →
        0 ≤ indices.getD k 0 ∧ indices.getD k 0 < var.dimensions.getD k 0) →
      calculate_array_offset var indices =
        .ok (row_major_offset indices (var.dimensions.take indices.length))) := by
  constructor
  · by_cases h : var.dimensions.length = 0
    · cases hd : var.dimensions with
      | nil => simp [calculate_array_offset, ha, hd, array_offset_loop]
      | cons d rest => rw [hd] at h; simp at h
    · have hne : ([] : List Int).length ≠ var.dimensions.length := by
        simp; omega
      simp [calculate_array_offset, ha, hne, array_offset_loop]
  · intro hlt hin
    have hne : indices.length ≠ var.dimensions.length := by omega
    by_cases h0 : indices.length = 0
    · have hidx : indices = [] := List.length_eq_zero.mp h0
      subst hidx
      have hne2 : ([] : List Int).length ≠ var.dimensions.length := by simp; omega
      simp [calculate_array_offset, ha, hne2, row_major_offset_nil, array_offset_loop]
    · have hmin : min indices.length var.dimensions.length = indices.length := by omega
      have htake_len : indices.length = (var.dimensions.take indices.length).length := by
        simp [List.length_take]; omega
      have hloop := array_offset_loop_ok indices (var.dimensions.take indices.length) 0
        htake_len
        (fun k hk => by
          have := hin k hk
          rwa [getD_take_lt var.dimensions indices.length k hk])
      simp [calculate_array_offset, ha, hne, hmin, h0, List.take_length, hloop]

/-- Witness for claim C10: on declared extents [3,4,5], the two supplied
indices (2,3) give offset 2*4+3 = 11 (stride from the supplied positions
only), and zero supplied indices give offset 0. -/
theorem claim_C10_witness :
    calculate_array_offset ⟨true, [3, 4, 5]⟩ [2, 3] = .ok 11 ∧
    calculate_array_offset ⟨true, [3, 4, 5]⟩ [] = .ok 0 := by
  constructor
  · have h := (claim_C10_partial_indices ⟨true, [3, 4, 5]⟩ [2, 3] rfl).2
      (by decide) (by decide)
    have hv : row_major_offset [2, 3] ([3, 4, 5].take 2) = 11 := by
      norm_num [row_major_offset, Finset.sum_range_succ]
    simpa [hv] using h
  · exact (claim_C10_partial_indices ⟨true, [3, 4, 5]⟩ [] rfl).1

/-- Helper for claim C6: every value produced by the operator switch is
stored at the width of the promoted type it was applied at. -/
theorem apply_binary_operator_tag (op : BinOp) (uns : Bool) (pt : VarType)
    (lv rv v : CValue)
    (h : (apply_binary_operator op uns pt lv rv).val = some v) : v.tag = pt := by
  unfold apply_binary_operator at h
  repeat' split at h
  all_goals simp only [Res.mk.injEq, Option.some.injEq] at h
  all_goals try subst h
  all_goals simp_all [CValue.tag]

/-- Helper for claim C6: the result slot of handle_binary_operation always
carries the promoted type of the two operand types. -/
theorem hbo_result_tag (op : BinOp) (uns : Bool) (l r : Expr) (v : CValue)
    (h : (handle_binary_operation op uns l r).val = some v) :
    v.tag = promote_type (get_expression_type l) (get_expression_type r) := by
  unfold handle_binary_operation at h
  dsimp only [] at h
  cases hpt : promote_type (get_expression_type l) (get_expression_type r) <;>
    rw [hpt] at h <;>
    repeat' split at h
  all_goals
    first
    | exact apply_binary_operator_tag _ _ _ _ _ _ h
    | simp_all

set_option maxHeartbeats 1600000 in
/-- Claim C6 as amended: the promoted type is commutative and is the
maximum of the two numeric operand types in the order short < int <
float < double; every produced result value carries the promoted type;
and for literal operands the two operand slots receive exactly the
specification widening of the operand values to the promoted type —
except that a short-typed literal operand under float or double promotion
is not widened (the float and double evaluators have no case for short
nodes and yield 0 with a diagnostic), which the last conjunct excludes by
hypothesis. -/
theorem claim_C6_promotion (t1 t2 : VarType) (op : BinOp) (uns : Bool)
    (l r : Expr) (wlv wrv : CValue) :
    (promote_type t1 t2 = promote_type t2 t1) ∧
    (is_numeric t1 → is_numeric t2 →
      promote_type t1 t2 =
        (if promotion_rank t2 ≤ promotion_rank t1 then t1 else t2)) ∧
    (∀ v, (handle_binary_operation op uns l r).val = some v →
      v.tag = promote_type (get_expression_type l) (get_expression_type r)) ∧
    (¬(get_expression_type l = VAR_SHORT ∧
          (promote_type (get_expression_type l) (get_expression_type r) = VAR_FLOAT ∨
           promote_type (get_expression_type l) (get_expression_type r) = VAR_DOUBLE)) →
      ¬(get_expression_type r = VAR_SHORT ∧
          (promote_type (get_expression_type l) (get_expression_type r) = VAR_FLOAT ∨
           promote_type (get_expression_type l) (get_expression_type r) = VAR_DOUBLE)) →
      (literal_value l).bind
          (spec_widen (promote_type (get_expression_type l) (get_expression_type r)))
        = some wlv →
      (literal_value r).bind
          (spec_widen (promote_type (get_expression_type l) (get_expression_type r)))
        = some wrv →
      handle_binary_operation op uns l r =
        apply_binary_operator op uns
          (promote_type (get_expression_type l) (get_expression_type r)) wlv wrv) := by
  refine ⟨by cases t1 <;> cases t2 <;> rfl,
          by cases t1 <;> cases t2 <;> decide,
          hbo_result_tag op uns l r, ?_⟩
  intro hexl hexr hw1 hw2
  cases l <;> cases r <;>
    first
    | (simp only [literal_value, Option.none_bind] at hw1; exact Option.noConfusion hw1)
    | (simp only [literal_value, Option.none_bind] at hw2; exact Option.noConfusion hw2)
    | simp_all [literal_value, get_expression_type, promote_type, spec_widen,
        handle_binary_operation, evaluate_expression_int, evaluate_expression_short,
        evaluate_expression_float, evaluate_expression_double, CFloat.of_int]

/-- Counterexample for claim C6 as stated: for the operand pair
(short 5, float 1.0) the promoted type is float and widening would make
the operation produce 6.0f with no diagnostic, but the short operand is
evaluated by evaluate_expression_float, which has no short case: the
operation yields 1.0f together with an Invalid float expression
diagnostic, so the short operand was not widened to the promoted type. -/
theorem claim_C6_counterexample :
    handle_binary_operation OP_PLUS false (.shortLit 5) (.floatLit (.finite 1)) =
      ⟨some (.floatV (.finite 1)), ["Invalid float expression"]⟩ ∧
    promote_type (get_expression_type (.shortLit 5))
        (get_expression_type (.floatLit (.finite 1))) = VAR_FLOAT ∧
    spec_widen VAR_FLOAT (.shortV 5) = some (.floatV (.finite 5)) ∧
    apply_binary_operator OP_PLUS false VAR_FLOAT (.floatV (.finite 5)) (.floatV (.finite 1)) =
      ⟨some (.floatV (.finite 6)), []⟩ ∧
    ((⟨some (.floatV (.finite 1)), ["Invalid float expression"]⟩ : Res CValue) ≠
      ⟨some (.floatV (.finite 6)), []⟩) := by
  refine ⟨?_, rfl, rfl, ?_, ?_⟩
  · simp [handle_binary_operation, get_expression_type, promote_type,
      evaluate_expression_float, evaluate_expression_short, apply_binary_operator,
      CFloat.add]
  · norm_num [apply_binary_operator, CFloat.add]
  · intro hcontra
    simp only [Res.mk.injEq, Option.some.injEq, CValue.floatV.injEq,
      CFloat.finite.injEq] at hcontra
    norm_num at hcontra

/-- Witness for claim C6 at the operand pair (int 2, float 1.0): the
promotion is commutative there, and the operation applies the operator to
the widened slots 2.0f and 1.0f. -/
theorem claim_C6_witness :
    promote_type VAR_INT VAR_FLOAT = promote_type VAR_FLOAT VAR_INT ∧
    handle_binary_operation OP_PLUS false (.intLit 2) (.floatLit (.finite 1)) =
      apply_binary_operator OP_PLUS false VAR_FLOAT (.floatV (.finite 2)) (.floatV (.finite 1)) := by
  have h := claim_C6_promotion VAR_INT VAR_FLOAT OP_PLUS false
    (.intLit 2) (.floatLit (.finite 1))
    (.floatV (.finite 2)) (.floatV (.finite 1))
  exact ⟨h.1, h.2.2.2 (by simp [get_expression_type]) (by simp [get_expression_type])
    rfl rfl⟩


/-- Claim C8 as amended: when the number of positional arguments differs
from the number of declared parameters, a diagnostic is reported before
the callee scope is created and no parameter is bound — but the call is
not fatal: execution continues, and the function body is executed in the
caller environment (the state the body runs in has exactly the caller
scope chain); afterwards, if the then-current scope happens to be a
function-boundary scope, it is popped (src/ast.c:2950-2953). -/
theorem claim_C8_arity_mismatch (fuel jb : Nat) (st : InterpState) (name : String)
    (args : List Expr) (func : FunctionDef) (arg_values : List CValue)
    (diags : List String)
    (hf : get_function st.functions name = some func)
    (hargs : eval_args_loop (args.zip func.parameters.reverse) [] = some (arg_values, diags))
    (hcount : args.length ≠ func.parameters.length) :
    execute_function_call (fuel+1) jb st name args =
      (let st2 : InterpState :=
        { st with
            err := st.err ++ diags ++ ["Mismatched number of arguments and parameters"],
            crv_type := func.return_type, crv_has := false }
       match execute_statement fuel (jb+1) st2 func.body with
       | (st3, .norm) =>
           match st3.scopes with
           | scope :: _ => if scope.is_function_scope then exit_scope st3 else (st3, .norm)
           | [] => (st3, .norm)
       | (st3, .jmp) => (st3, .norm)
       | other => other) := by
  have hlen : args.length ≠ func.parameters.reverse.length := by
    simpa using hcount
  simp only [execute_function_call, hf, enter_function_scope, hargs,
    List.append_assoc]
  rw [if_pos hlen]

/-- Witness for claim C8: calling the one-parameter function f with zero
arguments from a fresh state instantiates the mismatch equation. -/
theorem claim_C8_witness :
    execute_function_call 8 0 (initial_state [("f", C8func)]) "f" [] =
      (let st2 : InterpState :=
        { initial_state [("f", C8func)] with
            err := (initial_state [("f", C8func)]).err ++ []
              ++ ["Mismatched number of arguments and parameters"],
            crv_type := C8func.return_type, crv_has := false }
       match execute_statement 7 1 st2 C8func.body with
       | (st3, .norm) =>
           match st3.scopes with
           | scope :: _ => if scope.is_function_scope then exit_scope st3 else (st3, .norm)
           | [] => (st3, .norm)
       | (st3, .jmp) => (st3, .norm)
       | other => other) := by
  exact claim_C8_arity_mismatch 7 0 (initial_state [("f", C8func)]) "f" [] C8func [] []
    (by rfl) (by rfl) (by decide)

/-- Counterexample for claim C8 as stated: the mismatched call prints 7
(the body executed), completes normally (the run does not terminate), and
leaves the caller scope chain and the push counter untouched (no callee
scope, no binding) with only the mismatch diagnostic recorded. -/
theorem claim_C8_counterexample :
    (execute_function_call 8 0 (initial_state [("f", C8func)]) "f" []).1.out = [7] ∧
    (execute_function_call 8 0 (initial_state [("f", C8func)]) "f" []).2 = .norm ∧
    (execute_function_call 8 0 (initial_state [("f", C8func)]) "f" []).1.scopes =
      (initial_state [("f", C8func)]).scopes ∧
    (execute_function_call 8 0 (initial_state [("f", C8func)]) "f" []).1.enters = 0 ∧
    (execute_function_call 8 0 (initial_state [("f", C8func)]) "f" []).1.err =
      ["Mismatched number of arguments and parameters"] := by
  refine ⟨?_, ?_, ?_, ?_, ?_⟩ <;>
    simp [execute_function_call, C8func, initial_state, get_function,
      enter_function_scope, eval_args_loop, execute_statement, evaluate_expression,
      is_expression, evaluate_expression_int, get_expression_type, exit_scope]
